import Mathlib

/-!
# Verification of the quick-toolkit/react-router route-matching core

This development embeds the repository's route-matching and ranking engine
and its React component layer in Lean 4 and proves the documented
properties about them.

The component layer (`Route`, `createRoutesFromChildren` in
`src/packages/react-router/lib/components.tsx`) is translated directly
from the source.  The matching engine itself (`router.ts`: path pattern
parser, pattern compiler, route flattener, branch ranker, matcher,
basename utilities) is imported by the components but its source file is
not part of the checked-in sources, so each of its definitions below is
modelled from the specification (spec.md sections 3 through 7) and marked
`Modelled from the spec:` in its doc comment.
-/

namespace ReactRouter

/-! ## Path segmentation

Tokens of a path are kept as `List Char` so that every operation reduces
by computation in the kernel. -/

/-- Modelled from the spec: splitting a path string on `/` (missing
`router.ts` path utilities).  Splits a character list on `'/'`,
producing the raw chunks, empties included. -/
def splitOnSlash : List Char → List (List Char)
  | [] => [[]]
  | c :: cs =>
    let r := splitOnSlash cs
    if c = '/' then [] :: r
    else
      match r with
      | [] => [[c]]
      | s :: rest => (c :: s) :: rest

/-- Modelled from the spec: the `/`-delimited tokens of a path, with
empty tokens from leading/trailing/duplicate slashes dropped
(spec section 4.1). -/
def segments (s : String) : List (List Char) :=
  (splitOnSlash s.data).filter (fun t => ¬ t.isEmpty)

/-- Join tokens back into a character list with `/` separators. -/
def joinTokens : List (List Char) → List Char
  | [] => []
  | [t] => t
  | t :: ts => t ++ '/' :: joinTokens ts

/-! ## Path pattern parser (spec section 4.1) -/

/-- One `/`-delimited token of a parsed path pattern (spec section 3,
`Segment`).  A dynamic segment carries its parameter name and whether a
trailing `?` marked it optional. -/
inductive Segment where
  | static (value : List Char)
  | dynamic (name : List Char) (isOptional : Bool)
  | splat
  deriving DecidableEq, Repr

/-- Is this segment the splat wildcard? -/
def Segment.isSplat : Segment → Bool
  | .splat => true
  | _ => false

/-- Is this segment dynamic (required or optional)? -/
def Segment.isDynamic : Segment → Bool
  | .dynamic _ _ => true
  | _ => false

/-- Malformed path pattern errors (spec section 7): a `*` splat segment
in a non-final position, or an empty dynamic parameter name. -/
inductive PatternError where
  | splatNotFinal
  | emptyParamName
  deriving DecidableEq, Repr

/-- Modelled from the spec: classification of one token (missing
`router.ts` pattern parser).  `*` is a splat; a token beginning with `:`
is dynamic, its name everything after `:` minus a trailing `?` which
sets the optional flag, an empty name failing with `PatternError`; any
other token is static. -/
def parseToken (t : List Char) : Except PatternError Segment :=
  if t = ['*'] then .ok .splat
  else
    match t with
    | ':' :: rest =>
      let nm := if rest.getLast? = some '?' then rest.dropLast else rest
      if nm = [] then .error .emptyParamName
      else .ok (.dynamic nm (decide (rest.getLast? = some '?')))
    | _ => .ok (.static t)

/-- Modelled from the spec: parse a token list into segments, failing
with `PatternError.splatNotFinal` when a splat is followed by further
tokens (missing `router.ts` pattern parser). -/
def parseSegments : List (List Char) → Except PatternError (List Segment)
  | [] => .ok []
  | t :: ts =>
    match parseToken t with
    | .error e => .error e
    | .ok s =>
      if s.isSplat && !ts.isEmpty then .error .splatNotFinal
      else
        match parseSegments ts with
        | .error e => .error e
        | .ok rest => .ok (s :: rest)

/-- Modelled from the spec: parse a full path pattern string into its
ordered segment sequence (spec section 4.1). -/
def parsePath (p : String) : Except PatternError (List Segment) :=
  parseSegments (segments p)

/-- Did the computation succeed? -/
def isOkE {ε α : Type} : Except ε α → Bool
  | .ok _ => true
  | .error _ => false

/-- The spec's well-formedness condition on a single token, in its own
words: a token beginning with `:` must have a non-empty parameter name
once a trailing `?` is removed. -/
def tokenOk (t : List Char) : Bool :=
  match t with
  | ':' :: rest =>
    if (if rest.getLast? = some '?' then rest.dropLast else rest) = [] then false
    else true
  | _ => true

/-- The spec's well-formedness condition on a token list: every token is
acceptable and a `*` token only appears as the final token. -/
def wellFormedTokens : List (List Char) → Bool
  | [] => true
  | t :: ts =>
    tokenOk t && (if t = ['*'] then ts.isEmpty else true) && wellFormedTokens ts

/-- The spec's well-formedness condition on a whole pattern string. -/
def wellFormedPattern (p : String) : Bool :=
  wellFormedTokens (segments p)

/-! ## Pattern compiler: specificity score (spec section 4.2) -/

/-- Modelled from the spec: the per-segment specificity weight — static
10, dynamic required 3, dynamic optional 2, splat 1 (spec section 4.2). -/
def segWeight : Segment → Nat
  | .static _ => 10
  | .dynamic _ false => 3
  | .dynamic _ true => 2
  | .splat => 1

/-- Modelled from the spec: the additional credit a pattern receives for
not ending in a splat, so that a non-splat pattern outranks an
otherwise-identical splat pattern of equal weighted score (spec
section 4.2; the exact constant is a design choice per section 9). -/
def nonSplatCredit : Nat := 2

/-- Does the segment list end in a splat? -/
def endsInSplat (segs : List Segment) : Bool :=
  match segs.getLast? with
  | some .splat => true
  | _ => false

/-- Modelled from the spec: the weighted-sum loop of the specificity
computation — accumulate each segment's weight, a splat ending the scan
after contributing its own point (spec section 4.2). -/
def scoreLoop : List Segment → Nat
  | [] => 0
  | .splat :: _ => segWeight .splat
  | s :: rest => segWeight s + scoreLoop rest

/-- Modelled from the spec: the specificity score of a compiled pattern
(missing `router.ts` pattern compiler): the weighted-sum loop plus the
credit for not ending in a splat (spec section 4.2). -/
def score (segs : List Segment) : Nat :=
  scoreLoop segs + (if endsInSplat segs then 0 else nonSplatCredit)

/-- The prefix of a segment list up to and including its first splat
(the whole list when no splat occurs): exactly the segments that
contribute to the specificity score. -/
def takeThroughSplat : List Segment → List Segment
  | [] => []
  | .splat :: _ => [.splat]
  | s :: rest => s :: takeThroughSplat rest

/-- Number of dynamic (required or optional) segments, used by the
ranker's tie-break (spec section 4.4). -/
def dynCount (segs : List Segment) : Nat :=
  (segs.filter Segment.isDynamic).length

/-! ## Pattern compiler: matching predicate (spec section 4.2) -/

/-- ASCII lower-casing of one character, used for the default
case-insensitive comparison of static segments. -/
def lowerChar (c : Char) : Char :=
  if 'A' ≤ c ∧ c ≤ 'Z' then Char.ofNat (c.toNat + 32) else c

/-- Modelled from the spec: comparison of a static pattern token with a
pathname token, respecting the case-sensitivity option (spec
sections 4.2 and 8). -/
def tokenMatches (caseSensitive : Bool) (pat tok : List Char) : Bool :=
  if caseSensitive then pat = tok
  else pat.map lowerChar = tok.map lowerChar

/-- Modelled from the spec: match pattern segments against the pathname
tokens (missing `router.ts` matching predicate).  Static segments must
match literally (respecting case sensitivity); a dynamic segment matches
any single non-empty pathname token, an optional dynamic segment also
matching absence once the pathname is exhausted; a splat matches the
zero or more remaining pathname characters, captured under the name
`*`.  Captured values are reported raw (decoding happens when the match
records are built): a required or consumed capture as `some`, an absent
optional capture as `none`. -/
def matchSegs (caseSensitive : Bool) :
    List Segment → List (List Char) → Option (List (List Char × Option (List Char)))
  | [], [] => some []
  | [], _ :: _ => none
  | .splat :: _, toks => some [(['*'], some (joinTokens toks))]
  | .static v :: ps, tok :: toks =>
    if tokenMatches caseSensitive v tok then matchSegs caseSensitive ps toks
    else none
  | .static _ :: _, [] => none
  | .dynamic n _ :: ps, tok :: toks =>
    (matchSegs caseSensitive ps toks).map (fun r => (n, some tok) :: r)
  | .dynamic n opt :: ps, [] =>
    if opt then (matchSegs caseSensitive ps []).map (fun r => (n, none) :: r)
    else none

/-! ## Parameter decoding (spec sections 4.5 and 7) -/

/-- Value of one hexadecimal digit, `none` for a non-hex character. -/
def hexVal (c : Char) : Option Nat :=
  if '0' ≤ c ∧ c ≤ '9' then some (c.toNat - '0'.toNat)
  else if 'a' ≤ c ∧ c ≤ 'f' then some (c.toNat - 'a'.toNat + 10)
  else if 'A' ≤ c ∧ c ≤ 'F' then some (c.toNat - 'A'.toNat + 10)
  else none

/-- Modelled from the spec: percent-decoding of a captured value
(missing `router.ts` parameter decoding).  Each `%XX` escape with two
hex digits becomes the character of code `XX`; a `%` not followed by two
hex digits is a malformed escape and the whole decode fails
(`DecodeError`), which the caller recovers from by falling back to the
raw value. -/
def decodeChars : List Char → Option (List Char)
  | [] => some []
  | '%' :: c1 :: c2 :: rest =>
    match hexVal c1, hexVal c2 with
    | some h1, some h2 =>
      (decodeChars rest).map (fun r => Char.ofNat (h1 * 16 + h2) :: r)
    | _, _ => none
  | '%' :: _ => none
  | c :: rest => (decodeChars rest).map (fun r => c :: r)

/-- Modelled from the spec: decode one captured value, falling back to
the raw captured characters when decoding fails, so a malformed escape
can never crash the caller (spec section 7, `DecodeError`). -/
def decodeParam (raw : List Char) : List Char :=
  (decodeChars raw).getD raw

/-! ## Route flattener (spec sections 3 and 4.3) -/

/-- A node of the caller's declared route tree (spec section 3,
`RouteDefinition`): an optional path, an index flag, a case-sensitivity
flag, a stable identity used to recover which declaration produced a
flattened entry (spec section 9), and the ordered children. -/
inductive RouteDefinition where
  | node (path : Option String) (isIndex : Bool) (caseSensitive : Bool)
      (id : Nat) (children : List RouteDefinition)
  deriving Repr

/-- Structurally invalid route declaration (spec section 7): an index
route with children or a path. -/
inductive ConfigError where
  | indexWithChildrenOrPath (id : Nat)
  deriving DecidableEq, Repr

/-- A compile-time failure: either a structurally invalid declaration
found while flattening or a malformed pattern found while compiling. -/
inductive CompileError where
  | config (e : ConfigError)
  | pattern (e : PatternError)
  deriving DecidableEq, Repr

/-- One flattened root-to-leaf path through the tree (spec section 3,
`RouteBranch`): the compiled segments of the full joined path, its
specificity score, the leaf's case-sensitivity flag, whether the leaf is
an index route, and the chain of route identities from root to leaf. -/
structure RouteBranch where
  segs : List Segment
  branchScore : Nat
  caseSensitive : Bool
  isIndex : Bool
  chain : List Nat
  deriving DecidableEq, Repr

mutual

/-- Modelled from the spec: flatten one route under an accumulated
parent token list and ancestor chain (missing `router.ts` flattener,
spec section 4.3).  An index route with children or a path is a
configuration error; a route with children recurses into each child
with the joined path, emitting no branch of its own; a leaf emits one
branch whose full path is the joined path (the parent path itself for
an index route, which contributes no tokens) and whose chain includes
itself.  Emission order mirrors declaration order. -/
def flattenOne (parentToks : List (List Char)) (chain : List Nat) :
    RouteDefinition → Except CompileError (List RouteBranch)
  | .node path isIndex caseSensitive id children =>
    if isIndex ∧ (path.isSome ∨ ¬ children.isEmpty) then
      .error (.config (.indexWithChildrenOrPath id))
    else
      let toks := parentToks ++ segments ((path.getD ""))
      match children with
      | [] =>
        match parseSegments toks with
        | .error e => .error (.pattern e)
        | .ok segs =>
          .ok [{ segs := segs, branchScore := score segs,
                 caseSensitive := caseSensitive, isIndex := isIndex,
                 chain := chain ++ [id] }]
      | c :: cs => flattenList toks (chain ++ [id]) (c :: cs)

/-- Modelled from the spec: flatten a list of sibling routes in
declaration order (spec section 4.3). -/
def flattenList (parentToks : List (List Char)) (chain : List Nat) :
    List RouteDefinition → Except CompileError (List RouteBranch)
  | [] => .ok []
  | r :: rs =>
    match flattenOne parentToks chain r with
    | .error e => .error e
    | .ok bs =>
      match flattenList parentToks chain rs with
      | .error e => .error e
      | .ok rest => .ok (bs ++ rest)

end

/-! ## Branch ranker (spec section 4.4) -/

/-- Modelled from the spec: may branch `a` be placed no later than
branch `b`?  Higher specificity score first; among equal scores an index
leaf ranks above a non-index sibling with an identical joined path;
then the branch with fewer dynamic/optional segments; remaining ties
are left to the sort's stability, preserving declaration order (spec
section 4.4). -/
def branchLE (a b : RouteBranch) : Bool :=
  if b.branchScore < a.branchScore then true
  else if a.branchScore < b.branchScore then false
  else if a.segs = b.segs then
    if a.isIndex = b.isIndex then true else a.isIndex
  else if dynCount a.segs < dynCount b.segs then true
  else if dynCount b.segs < dynCount a.segs then false
  else true

/-- Stable insertion into an already ranked list: the new element goes
after every existing element allowed to precede it. -/
def insertRanked (x : RouteBranch) : List RouteBranch → List RouteBranch
  | [] => [x]
  | y :: ys => if branchLE y x then y :: insertRanked x ys else x :: y :: ys

/-- Modelled from the spec: stable sort of the flattened branches by
`branchLE` (missing `router.ts` branch ranker, spec section 4.4).
Earlier-declared branches are inserted first, so exact ties preserve
declaration order. -/
def rankBranches (bs : List RouteBranch) : List RouteBranch :=
  bs.foldl (fun acc b => insertRanked b acc) []

/-- Modelled from the spec: `compile(routeTree) -> RankedBranches`
(spec section 6): flatten the tree from the root with an empty parent
path, then rank the branches. -/
def compile (tree : List RouteDefinition) : Except CompileError (List RouteBranch) :=
  match flattenList [] [] tree with
  | .error e => .error e
  | .ok bs => .ok (rankBranches bs)

/-! ## Matcher (spec section 4.5) -/

/-- Modelled from the spec: strip the basename prefix from the pathname
tokens (missing `router.ts` basename utility, spec sections 4.5 and 6).
An absent/empty basename is a no-op; otherwise the pathname must start
with the basename's tokens, and the call fails silently — `none`, no
error is raised — when it does not. -/
def stripBasenameToks (pathToks basenameToks : List (List Char)) :
    Option (List (List Char)) :=
  match basenameToks with
  | [] => some pathToks
  | _ =>
    if basenameToks.isPrefixOf pathToks then
      some (pathToks.drop basenameToks.length)
    else none

/-- One entry of a match result (spec section 3, `RouteMatch`): the
identity of the RouteDefinition it corresponds to, the mapping from
parameter name to decoded value (`none` for an absent optional
capture), and the pathname consumed by the matched branch. -/
structure RouteMatch where
  routeId : Nat
  params : List (String × Option String)
  pathname : String
  deriving DecidableEq, Repr

/-- Modelled from the spec: scan the ranked branch list in order and
return the first branch whose compiled pattern accepts the pathname
tokens, together with its raw captures (spec section 4.5). -/
def firstMatch (branches : List RouteBranch) (toks : List (List Char)) :
    Option (RouteBranch × List (List Char × Option (List Char))) :=
  match branches with
  | [] => none
  | b :: bs =>
    match matchSegs b.caseSensitive b.segs toks with
    | some captures => some (b, captures)
    | none => firstMatch bs toks

/-- Modelled from the spec: build the ordered RouteMatch sequence for a
matched branch — decode every captured value with raw-value fallback
and emit one record per route of the ownership chain, root ancestor
first, each carrying the consumed pathname (modelled at the granularity
of the full matched pathname) (spec section 4.5). -/
def buildMatches (b : RouteBranch) (captures : List (List Char × Option (List Char)))
    (toks : List (List Char)) : List RouteMatch :=
  let params : List (String × Option String) :=
    captures.map (fun nv =>
      (String.mk nv.1, nv.2.map (fun raw => String.mk (decodeParam raw))))
  let consumed : String := String.mk ('/' :: joinTokens toks)
  b.chain.map (fun id => { routeId := id, params := params, pathname := consumed })

/-- Modelled from the spec:
`match(rankedBranches, pathname, basename?) -> RouteMatch[] | null`
(missing `router.ts` matcher, spec sections 4.5 and 6): strip the
basename (returning no match, silently, when the pathname does not
start with it), then return the match records of the first ranked
branch that accepts the remaining pathname, or `none` when no branch
matches — no-match is a valid result, not an error. -/
def matchRoutes (branches : List RouteBranch) (pathname basename : String) :
    Option (List RouteMatch) :=
  match stripBasenameToks (segments pathname) (segments basename) with
  | none => none
  | some toks =>
    (firstMatch branches toks).map (fun bc => buildMatches bc.1 bc.2 toks)

/-- The whole pipeline as one function of its inputs: compile the route
tree, then match the pathname under the basename (spec section 6's two
API entry points composed). -/
def runMatch (tree : List RouteDefinition) (pathname basename : String) :
    Except CompileError (Option (List RouteMatch)) :=
  match compile tree with
  | .error e => .error e
  | .ok branches => .ok (matchRoutes branches pathname basename)

/-! ## Component layer (`src/packages/react-router/lib/components.tsx`)

The React values that `createRoutesFromChildren` discriminates are
embedded as a tree: non-element children (null, strings, ...), `<Route>`
elements carrying their props, `React.Fragment` elements carrying their
children, and any other element kind, carrying only the type name used
in the failure message.  Opaque payloads (`element`, `validator`) are
represented by numeric identities; `props.children` is `none` when the
prop is absent (a falsy value in the source's `if` test) and `some`
when present. -/

mutual

inductive ReactNode where
  | nullNode
  | textNode (s : String)
  | routeElement (props : RouteProps)
  | fragmentElement (children : List ReactNode)
  | otherElement (typeName : String)

inductive RouteProps where
  | mk (caseSensitive : Option Bool) (element : Option Nat)
      (title : Option String) (index : Option Bool) (validator : Option Nat)
      (path : Option String) (name : Option String)
      (children : Option (List ReactNode))

end

/-- The `children` prop of a `<Route>` element. -/
def RouteProps.children : RouteProps → Option (List ReactNode)
  | .mk _ _ _ _ _ _ _ ch => ch

/-- One entry of the route config built from `<Route>` children
(`RouteObject` in `lib/router`): the props copied over by
`createRoutesFromChildren`, plus the recursively built `children` when
the element had children. -/
inductive RouteObject where
  | mk (caseSensitive : Option Bool) (element : Option Nat)
      (title : Option String) (index : Option Bool) (validator : Option Nat)
      (path : Option String) (name : Option String)
      (children : Option (List RouteObject))

/-- `invariant(cond, message)` from `lib/router`: throws `message`
unless `cond` holds. -/
def invariant (cond : Bool) (message : String) : Except String Unit :=
  if cond then .ok () else .error message

/-- The message of the invariant inside the `Route` component
(`components.tsx` lines 153-157). -/
def routeInvariantMessage : String :=
  "A <Route> is only ever to be used as the child of <Routes> element, never rendered directly. Please wrap your <Route> in a <Routes>."

/-- The `Route` component (`components.tsx` lines 150-158): its body is
a single `invariant(false, ...)`, so calling it can only throw; it
never produces an element. -/
def Route (_props : RouteProps) : Except String (Option Nat) :=
  match invariant false routeInvariantMessage with
  | .error e => .error e
  | .ok _ => .ok none

/-- The invariant message raised for a child element that is neither a
`<Route>` nor a fragment (`components.tsx` lines 297-302). -/
def notARouteMessage (typeName : String) : String :=
  "[" ++ typeName ++ "] is not a <Route> component. All component children of <Routes> must be a <Route> or <React.Fragment>"

/-- The RouteObject built for one `<Route>` element (`components.tsx`
lines 304-312): copies `caseSensitive`, `element`, `title`, `index`,
`validator`, `path` and `name` from the props; `children` is the
recursively built route list, set only when `props.children` was
present (lines 314-316). -/
def mkRouteObject : RouteProps → Option (List RouteObject) → RouteObject
  | .mk c e t i v p n _, childRoutes => .mk c e t i v p n childRoutes

/-- `createRoutesFromChildren` (`components.tsx` lines 276-322): walk
the children in order; skip non-elements; splice a fragment's own
routes in place; turn each `<Route>` element into one RouteObject,
recursing into its children only when present; fail with the invariant
message on any other element type. -/
def createRoutesFromChildren : List ReactNode → Except String (List RouteObject)
  | [] => .ok []
  | .nullNode :: rest => createRoutesFromChildren rest
  | .textNode _ :: rest => createRoutesFromChildren rest
  | .fragmentElement cs :: rest =>
    match createRoutesFromChildren cs with
    | .error e => .error e
    | .ok rs =>
      match createRoutesFromChildren rest with
      | .error e => .error e
      | .ok rest' => .ok (rs ++ rest')
  | .otherElement tn :: _ => .error (notARouteMessage tn)
  | .routeElement (.mk c e t i v p n none) :: rest =>
    match createRoutesFromChildren rest with
    | .error e' => .error e'
    | .ok rest' => .ok (mkRouteObject (.mk c e t i v p n none) none :: rest')
  | .routeElement (.mk c e t i v p n (some cs)) :: rest =>
    match createRoutesFromChildren cs with
    | .error e' => .error e'
    | .ok crs =>
      match createRoutesFromChildren rest with
      | .error e' => .error e'
      | .ok rest' =>
        .ok (mkRouteObject (.mk c e t i v p n (some cs)) (some crs) :: rest')

/-- The number of `<Route>` elements in a children value, fragments
expanded in place and non-elements dropped: the number of RouteObjects
`createRoutesFromChildren` produces when it succeeds. -/
def routeElementCount : List ReactNode → Nat
  | [] => 0
  | .routeElement _ :: rest => 1 + routeElementCount rest
  | .fragmentElement cs :: rest => routeElementCount cs + routeElementCount rest
  | .nullNode :: rest => routeElementCount rest
  | .textNode _ :: rest => routeElementCount rest
  | .otherElement _ :: rest => routeElementCount rest

/-! ## Helper lemmas -/

theorem isOkE_consMatch {ε α : Type} (x : Except ε (List α)) (s : α) :
    isOkE (match x with
           | .error e => (.error e : Except ε (List α))
           | .ok rest => .ok (s :: rest)) = isOkE x := by
  cases x <;> rfl

theorem parseToken_isOk (t : List Char) : isOkE (parseToken t) = tokenOk t := by
  by_cases hstar : t = ['*']
  · subst hstar; rfl
  · rw [parseToken.eq_def, tokenOk.eq_def, if_neg hstar]
    split
    · split <;> split <;> simp_all [isOkE]
    · rfl

theorem parseToken_splat (t : List Char) (s : Segment) (h : parseToken t = .ok s) :
    s.isSplat = decide (t = ['*']) := by
  by_cases hstar : t = ['*']
  · subst hstar
    have hv : parseToken ['*'] = .ok .splat := rfl
    rw [hv] at h
    cases h
    rfl
  · rw [parseToken.eq_def, if_neg hstar] at h
    simp only [decide_eq_false hstar]
    split at h
    · split at h <;> (dsimp only at h; split at h) <;> cases h <;> rfl
    · cases h
      rfl

theorem parseSegments_isOk (ts : List (List Char)) :
    isOkE (parseSegments ts) = wellFormedTokens ts := by
  induction ts with
  | nil => rfl
  | cons t ts ih =>
    have hok := parseToken_isOk t
    simp only [parseSegments, wellFormedTokens]
    cases hpt : parseToken t with
    | error e =>
      rw [hpt] at hok
      simp only [isOkE] at hok
      rw [← hok]
      simp [isOkE]
    | ok s =>
      rw [hpt] at hok
      simp only [isOkE] at hok
      have hsp := parseToken_splat t s hpt
      rw [← hok]
      dsimp only
      cases hsplat : s.isSplat with
      | true =>
        have ht : t = ['*'] := by
          rw [hsplat] at hsp
          exact of_decide_eq_true hsp.symm
        cases hts : ts.isEmpty with
        | true =>
          have hnil : ts = [] := by
            cases ts
            · rfl
            · simp [List.isEmpty] at hts
          subst hnil
          simp [hsplat, ht, isOkE, parseSegments, wellFormedTokens]
        | false =>
          simp [hsplat, hts, ht, isOkE]
      | false =>
        have ht : ¬ t = ['*'] := by
          intro hh
          rw [hh] at hsp
          simp at hsp
          rw [hsp] at hsplat
          cases hsplat
        simp only [hsplat, ht]
        simp [isOkE]
        cases hps : parseSegments ts with
        | error e =>
          rw [hps] at ih
          simpa [isOkE] using ih
        | ok rest =>
          rw [hps] at ih
          simpa [isOkE] using ih

theorem scoreLoop_eq_sum (segs : List Segment) :
    scoreLoop segs = ((takeThroughSplat segs).map segWeight).sum := by
  induction segs with
  | nil => rfl
  | cons s rest ih =>
    cases s with
    | static v => simp [scoreLoop, takeThroughSplat, ih]
    | dynamic n o => simp [scoreLoop, takeThroughSplat, ih]
    | splat => simp [scoreLoop, takeThroughSplat]

/-! ## Claim theorems -/

/-- C1: with sibling patterns `/users/:id` and `/users/me`, in either
declaration order, matching pathname `/users/me` selects the
`/users/me` branch; a static segment weighs strictly more than a
dynamic segment at the same depth, and the fully static pattern indeed
scores strictly higher than the parameterized sibling. -/
theorem spec_static_segment_beats_dynamic :
    runMatch [.node (some "/users/:id") false false 0 [],
              .node (some "/users/me") false false 1 []] "/users/me" ""
      = .ok (some [⟨1, [], "/users/me"⟩])
  ∧ runMatch [.node (some "/users/me") false false 1 [],
              .node (some "/users/:id") false false 0 []] "/users/me" ""
      = .ok (some [⟨1, [], "/users/me"⟩])
  ∧ (∀ (v n : List Char) (o : Bool), segWeight (.dynamic n o) < segWeight (.static v))
  ∧ score [.static ['u','s','e','r','s'], .static ['m','e']]
      > score [.static ['u','s','e','r','s'], .dynamic ['i','d'] false] := by
  refine ⟨rfl, rfl, ?_, by decide⟩
  intro v n o
  cases o <;> simp [segWeight]

/-- C2: the specificity score of a pattern is the sum of the
per-segment weights of the segments up to and including its first splat
(nothing after a splat contributes), plus the credit for not ending in
a splat; consequently a non-splat pattern strictly outranks a
splat-ending pattern of equal weighted score. -/
theorem spec_score_decomposition (segs : List Segment) :
    score segs
      = ((takeThroughSplat segs).map segWeight).sum
        + (if endsInSplat segs then 0 else nonSplatCredit)
  ∧ (∀ t : List Segment, endsInSplat t = true →
      ((takeThroughSplat t).map segWeight).sum
        = ((takeThroughSplat segs).map segWeight).sum →
      endsInSplat segs = false → score t < score segs) := by
  constructor
  · rw [score, scoreLoop_eq_sum]
  · intro t h1 h2 h3
    rw [score, score, scoreLoop_eq_sum, scoreLoop_eq_sum, h1, h2, h3]
    simp [nonSplatCredit]

/-- C2 witness: a concrete splat-ending pattern of weighted score 4 is
strictly outranked by a concrete non-splat pattern of weighted
score 4. -/
theorem spec_score_decomposition_witness :
    score [Segment.dynamic ['a'] false, Segment.splat]
      < score [Segment.dynamic ['a'] true, Segment.dynamic ['b'] true] :=
  (spec_score_decomposition [Segment.dynamic ['a'] true, Segment.dynamic ['b'] true]).2
    [Segment.dynamic ['a'] false, Segment.splat] (by decide) (by decide) (by decide)

/-- C3: when the pathname does not start with the basename the matcher
returns no match, silently; when it does, the basename prefix is
stripped and matching proceeds on the remainder; concretely, with
basename `/app`, `/app/users/3` matches `/users/:id` binding
`id = "3"`, while `/other/users/3` yields no match. -/
theorem spec_basename_stripping :
    (∀ (branches : List RouteBranch) (pathname basename : String),
        stripBasenameToks (segments pathname) (segments basename) = none →
        matchRoutes branches pathname basename = none)
  ∧ (∀ (branches : List RouteBranch) (pathname basename : String)
        (toks : List (List Char)),
        stripBasenameToks (segments pathname) (segments basename) = some toks →
        matchRoutes branches pathname basename
          = (firstMatch branches toks).map (fun bc => buildMatches bc.1 bc.2 toks))
  ∧ runMatch [.node (some "/users/:id") false false 0 []] "/app/users/3" "/app"
      = .ok (some [⟨0, [("id", some "3")], "/users/3"⟩])
  ∧ runMatch [.node (some "/users/:id") false false 0 []] "/other/users/3" "/app"
      = .ok none := by
  refine ⟨?_, ?_, rfl, rfl⟩
  · intro branches pathname basename h
    rw [matchRoutes, h]
  · intro branches pathname basename toks h
    rw [matchRoutes, h]

/-- C3 witness: a pathname outside the basename yields no match, and a
pathname under the basename is matched on its stripped remainder. -/
theorem spec_basename_stripping_witness :
    matchRoutes [] "/other/x" "/app" = none :=
  spec_basename_stripping.1 [] "/other/x" "/app" (by rfl)

/-- C4: pattern `/a/:b?` matches both `/a`, binding `b` to absent, and
`/a/x`, binding `b` to `"x"`. -/
theorem spec_optional_segment_matching :
    runMatch [.node (some "/a/:b?") false false 0 []] "/a" ""
      = .ok (some [⟨0, [("b", none)], "/a"⟩])
  ∧ runMatch [.node (some "/a/:b?") false false 0 []] "/a/x" ""
      = .ok (some [⟨0, [("b", some "x")], "/a/x"⟩]) :=
  ⟨rfl, rfl⟩

/-- C5: matching is deterministic — two calls of the whole pipeline on
equal route trees, pathnames and basenames produce structurally
identical results; the pipeline is a pure function with no hidden
state. -/
theorem spec_match_deterministic (t₁ t₂ : List RouteDefinition)
    (p₁ p₂ b₁ b₂ : String) (ht : t₁ = t₂) (hp : p₁ = p₂) (hb : b₁ = b₂) :
    runMatch t₁ p₁ b₁ = runMatch t₂ p₂ b₂ := by
  subst ht; subst hp; subst hb; rfl

/-- C5 witness: two identical concrete calls agree. -/
theorem spec_match_deterministic_witness :
    runMatch [.node (some "/users/me") false false 0 []] "/users/me" ""
      = runMatch [.node (some "/users/me") false false 0 []] "/users/me" "" :=
  spec_match_deterministic
    [.node (some "/users/me") false false 0 []]
    [.node (some "/users/me") false false 0 []]
    "/users/me" "/users/me" "" "" rfl rfl rfl

/-- C6: parsing a pattern succeeds exactly when the pattern is
well-formed in the spec's sense (no non-final `*` token, no empty
dynamic parameter name), and a parse failure is surfaced to the caller
of `compile` as a `PatternError`, never silently ignored. -/
theorem spec_pattern_error_iff_malformed (p : String) :
    isOkE (parsePath p) = wellFormedPattern p
  ∧ (∀ (e : PatternError) (id : Nat) (c : Bool),
      parsePath p = .error e →
      compile [.node (some p) false c id []] = .error (.pattern e)) := by
  constructor
  · exact parseSegments_isOk (segments p)
  · intro e id c h
    have hone : flattenOne [] [] (.node (some p) false c id []) = .error (.pattern e) := by
      rw [flattenOne]
      simp only [parsePath] at h
      simp [h]
    rw [compile, flattenList, hone]

/-- C6 witness: the malformed pattern `/a/*/b` (splat not in final
position) makes `compile` fail with the corresponding
`PatternError`. -/
theorem spec_pattern_error_iff_malformed_witness :
    compile [.node (some "/a/*/b") false false 0 []]
      = .error (.pattern .splatNotFinal) :=
  (spec_pattern_error_iff_malformed "/a/*/b").2 .splatNotFinal 0 false (by rfl)

/-- C7: captured parameter values are percent-decoded — `/tags/a%20b`
against `/tags/:tag` binds `tag = "a b"` — and a malformed escape falls
back to the raw captured substring — `/tags/%` binds `tag = "%"` —
decoding failure never failing the match. -/
theorem spec_param_decoding_fallback :
    runMatch [.node (some "/tags/:tag") false false 0 []] "/tags/a%20b" ""
      = .ok (some [⟨0, [("tag", some "a b")], "/tags/a%20b"⟩])
  ∧ runMatch [.node (some "/tags/:tag") false false 0 []] "/tags/%" ""
      = .ok (some [⟨0, [("tag", some "%")], "/tags/%"⟩])
  ∧ (∀ raw : List Char, decodeChars raw = none → decodeParam raw = raw) := by
  refine ⟨rfl, rfl, ?_⟩
  intro raw h
  rw [decodeParam, h]
  rfl

/-- C7 witness: the lone malformed escape `%` decodes to itself by the
raw-value fallback. -/
theorem spec_param_decoding_fallback_witness :
    decodeParam ['%'] = ['%'] :=
  spec_param_decoding_fallback.2.2 ['%'] (by rfl)

/-- C9: the `Route` component fails with the wrap-in-Routes invariant
message for every props value; it never returns a rendered element. -/
theorem route_component_never_renders (props : RouteProps) :
    Route props = .error routeInvariantMessage ∧ isOkE (Route props) = false :=
  ⟨rfl, rfl⟩

theorem createRoutes_length (ns : List ReactNode) :
    ∀ rs : List RouteObject, createRoutesFromChildren ns = .ok rs →
      rs.length = routeElementCount ns := by
  induction ns using createRoutesFromChildren.induct with
  | case1 =>
    intro rs h
    simp only [createRoutesFromChildren] at h
    cases h
    simp [routeElementCount]
  | case2 rest ih =>
    intro rs h
    simp only [createRoutesFromChildren] at h
    rw [routeElementCount, ih rs h]
  | case3 s rest ih =>
    intro rs h
    simp only [createRoutesFromChildren] at h
    rw [routeElementCount, ih rs h]
  | case4 cs rest e hcs ih =>
    intro rs h
    simp [createRoutesFromChildren, hcs] at h
  | case5 cs rest rs1 hcs e hrest ih1 ih2 =>
    intro rs h
    simp [createRoutesFromChildren, hcs, hrest] at h
  | case6 cs rest rs1 hcs rs2 hrest ih1 ih2 =>
    intro rs h
    simp only [createRoutesFromChildren, hcs, hrest] at h
    cases h
    rw [routeElementCount, List.length_append, ih1 rs1 hcs, ih2 rs2 hrest]
  | case7 tn tail =>
    intro rs h
    simp [createRoutesFromChildren] at h
  | case8 c e t i v p n rest e1 hrest ih =>
    intro rs h
    simp [createRoutesFromChildren, hrest] at h
  | case9 c e t i v p n rest rest' hrest ih =>
    intro rs h
    simp only [createRoutesFromChildren, hrest] at h
    cases h
    rw [routeElementCount, List.length_cons, ih rest' hrest]
    omega
  | case10 c e t i v p n cs rest e1 hcs ih =>
    intro rs h
    simp [createRoutesFromChildren, hcs] at h
  | case11 c e t i v p n cs rest crs hcs e1 hrest ih1 ih2 =>
    intro rs h
    simp [createRoutesFromChildren, hcs, hrest] at h
  | case12 c e t i v p n cs rest crs hcs rest' hrest ih1 ih2 =>
    intro rs h
    simp only [createRoutesFromChildren, hcs, hrest] at h
    cases h
    rw [routeElementCount, List.length_cons, ih2 rest' hrest]
    omega

/-- C10: `createRoutesFromChildren` skips non-element children, splices
a fragment's routes in place, fails with the invariant message on an
element that is neither a `<Route>` nor a fragment, turns each
`<Route>` element into one RouteObject copying `caseSensitive`,
`element`, `title`, `index`, `validator`, `path` and `name` from its
props and recursing into `props.children` only when present, and on
success produces exactly one RouteObject per `<Route>` element in
declaration order. -/
theorem createRoutesFromChildren_behavior :
    (∀ rest, createRoutesFromChildren (ReactNode.nullNode :: rest)
        = createRoutesFromChildren rest)
  ∧ (∀ s rest, createRoutesFromChildren (ReactNode.textNode s :: rest)
        = createRoutesFromChildren rest)
  ∧ (∀ cs rest, createRoutesFromChildren (ReactNode.fragmentElement cs :: rest)
        = match createRoutesFromChildren cs with
          | .error e => .error e
          | .ok rs =>
            match createRoutesFromChildren rest with
            | .error e => .error e
            | .ok rest' => .ok (rs ++ rest'))
  ∧ (∀ tn rest, createRoutesFromChildren (ReactNode.otherElement tn :: rest)
        = .error (notARouteMessage tn))
  ∧ (∀ c e t i v p n rest,
      createRoutesFromChildren (ReactNode.routeElement (.mk c e t i v p n none) :: rest)
        = match createRoutesFromChildren rest with
          | .error e' => .error e'
          | .ok rest' => .ok (RouteObject.mk c e t i v p n none :: rest'))
  ∧ (∀ c e t i v p n cs rest,
      createRoutesFromChildren
          (ReactNode.routeElement (.mk c e t i v p n (some cs)) :: rest)
        = match createRoutesFromChildren cs with
          | .error e' => .error e'
          | .ok crs =>
            match createRoutesFromChildren rest with
            | .error e' => .error e'
            | .ok rest' => .ok (RouteObject.mk c e t i v p n (some crs) :: rest'))
  ∧ (∀ c e t i v p n ch cr,
      mkRouteObject (.mk c e t i v p n ch) cr = RouteObject.mk c e t i v p n cr)
  ∧ (∀ ns rs, createRoutesFromChildren ns = .ok rs →
      rs.length = routeElementCount ns) := by
  refine ⟨?_, ?_, ?_, ?_, ?_, ?_, fun c e t i v p n ch cr => rfl,
          createRoutes_length⟩
  · intro rest
    simp only [createRoutesFromChildren]
  · intro s rest
    simp only [createRoutesFromChildren]
  · intro cs rest
    simp only [createRoutesFromChildren]
  · intro tn rest
    simp only [createRoutesFromChildren]
  · intro c e t i v p n rest
    simp only [createRoutesFromChildren]
    cases createRoutesFromChildren rest <;> rfl
  · intro c e t i v p n cs rest
    simp only [createRoutesFromChildren]
    cases createRoutesFromChildren cs <;> cases createRoutesFromChildren rest <;> rfl

/-- C10 witness: a children list with one fragment-wrapped `<Route>`, a
skipped non-element and one plain `<Route>` yields exactly its two
RouteObjects in declaration order. -/
theorem createRoutesFromChildren_behavior_witness :
    ([RouteObject.mk none none none none none none none none,
      RouteObject.mk none (some 7) none none none (some "/a") none none] :
        List RouteObject).length
      = routeElementCount
          [ReactNode.fragmentElement
             [ReactNode.routeElement (.mk none none none none none none none none)],
           ReactNode.nullNode,
           ReactNode.routeElement (.mk none (some 7) none none none (some "/a") none none)] :=
  createRoutesFromChildren_behavior.2.2.2.2.2.2.2
    [ReactNode.fragmentElement
       [ReactNode.routeElement (.mk none none none none none none none none)],
     ReactNode.nullNode,
     ReactNode.routeElement (.mk none (some 7) none none none (some "/a") none none)]
    [RouteObject.mk none none none none none none none none,
     RouteObject.mk none (some 7) none none none (some "/a") none none]
    (by simp [createRoutesFromChildren, mkRouteObject])

end ReactRouter
